import Mathlib

/-!
# Verification of the resilient delivery / access-control subsystem

Shallow embedding of the core of `ndiicloud-chat`:

* `MessageQueue` (bot file, lines 329-443): FIFO delivery queue with
  bounded retry, drained only while the bot is ready.
* Connection supervisor (`handleConnectionUpdate`, `handleReconnect`,
  bot file lines 643-720): readiness flag, exponential backoff, restart
  ceiling.
* `AntiSpam` (bot file lines 449-493): sliding-window rate limiter with
  timed bans.
* OTP verification (`botAPI.verifyOTP`, bot file lines 1503-1518, and
  the serverless handler `src/api/auth/verify.js`).

Machine integers do not overflow in any of the modelled code paths
(timestamps and counters are small), so they are embedded as `Nat`.
JavaScript objects used as key/value stores are embedded as association
lists with lookup / in-place set / delete operations.
-/

namespace NdiiCloud

/-! ## Delivery queue and connection supervisor -/

/-- An envelope in the delivery queue.  In the source, `MessageQueue.add`
builds `{id: uuidv4(), ...message, addedAt: Date.now(), attempts: 0}`;
the unique uuid is modelled by a `Nat` drawn from a counter, and the
payload fields (`to`, `type`, `content`, ...) are abstracted into
`dest`, none of the queue logic inspects them. -/
structure Envelope where
  id : Nat
  dest : String
  attempts : Nat
deriving DecidableEq, Repr

/-- Combined state of the message queue and the connection supervisor:
`queue`/`nextId` model `this.queue` and the uuid generator, `isBotReady`
and `reconnectAttempts` are the module-level variables of the bot file
(lines 282-283), `sent` records the ids of envelopes for which a
transport send succeeded (in order), and `enqueued` records the ids of
all envelopes ever enqueued (in submission order). -/
structure BotState where
  queue : List Envelope
  nextId : Nat
  isBotReady : Bool
  reconnectAttempts : Nat
  sent : List Nat
  enqueued : List Nat
deriving DecidableEq, Repr

def BotState.init : BotState :=
  { queue := [], nextId := 0, isBotReady := false,
    reconnectAttempts := 0, sent := [], enqueued := [] }

namespace MessageQueue

/-- `msg.attempts >= 3` is the drop threshold in `MessageQueue.process`. -/
def maxAttempts : Nat := 3

/-- One drain cycle of `MessageQueue.process` (bot file lines 355-382):
return unchanged when the queue is empty or the bot is not ready;
otherwise attempt a transport send for the head (`sendOk` is the
transport outcome).  On success the head is shifted off and recorded in
`sent`; on failure its `attempts` counter is incremented and it is
shifted off exactly when the counter reaches `maxAttempts`, otherwise it
stays at the head. -/
def processStep (s : BotState) (sendOk : Bool) : BotState :=
  match s.queue with
  | [] => s
  | msg :: rest =>
    if s.isBotReady = false then s
    else if sendOk then
      { s with queue := rest, sent := s.sent ++ [msg.id] }
    else
      let a := msg.attempts + 1
      if maxAttempts ≤ a then { s with queue := rest }
      else { s with queue := { msg with attempts := a } :: rest }

/-- The enqueue part of `MessageQueue.add` (bot file lines 344-353):
push a fresh envelope with `attempts := 0` onto the tail. -/
def push (s : BotState) (d : String) : BotState :=
  { s with queue := s.queue ++ [⟨s.nextId, d, 0⟩],
           nextId := s.nextId + 1,
           enqueued := s.enqueued ++ [s.nextId] }

/-- `MessageQueue.add`: push to the tail, then the triggered
`this.process()` call runs one drain cycle (whose transport outcome,
when it attempts anything, is `sendOk`). -/
def add (s : BotState) (d : String) (sendOk : Bool) : BotState :=
  processStep (push s d) sendOk

end MessageQueue

/-- What `handleReconnect` schedules: either `setTimeout(startBot, 30000)`
(the full rebuild past the ceiling) or `setTimeout(startBot, delay)` with
the backoff delay. -/
inductive ReconnectAction where
  | restart (cooldownMs : Nat)
  | retry (delayMs : Nat)
deriving DecidableEq, Repr

def MAX_RECONNECT_ATTEMPTS : Nat := 10

def RECONNECT_INTERVAL : Nat := 5000

/-- `Math.min(RECONNECT_INTERVAL * Math.pow(2, reconnectAttempts - 1), 60000)`
(bot file line 716).  `handleReconnect` always increments the counter
before computing this, so it is only ever evaluated at `n ≥ 1`. -/
def reconnectDelay (n : Nat) : Nat :=
  min (RECONNECT_INTERVAL * 2 ^ (n - 1)) 60000

/-- `handleReconnect` (bot file lines 706-720): increment
`reconnectAttempts`; past the ceiling, schedule a full restart after a
30000 ms cooldown (the counter is *not* reset here); otherwise schedule
a reconnect after the capped exponential backoff delay.  Returns the new
counter value together with the scheduled action. -/
def handleReconnect (reconnectAttempts : Nat) : Nat × ReconnectAction :=
  let n := reconnectAttempts + 1
  if MAX_RECONNECT_ATTEMPTS < n then (n, .restart 30000)
  else (n, .retry (reconnectDelay n))

/-- The drain loop that `process` keeps alive via
`setTimeout(() => this.process(), 1000)` while the queue is non-empty,
in the case where every transport send succeeds: `fuel` bounds the
number of cycles. -/
def drainAll : Nat → BotState → BotState
  | 0, s => s
  | n + 1, s => drainAll n (MessageQueue.processStep s true)

/-- The `connection === 'open'` branch of `handleConnectionUpdate`
(bot file lines 655-682): set `isBotReady := true`, reset
`reconnectAttempts := 0`, and call `messageQueue.process()`, which
drains the pending queue (modelled here with every send succeeding, so
the whole backlog is delivered). -/
def handleConnectionOpen (s : BotState) : BotState :=
  let s1 := { s with isBotReady := true, reconnectAttempts := 0 }
  drainAll s1.queue.length s1

/-- The `connection === 'close'` branch of `handleConnectionUpdate`
(bot file lines 684-699): clear readiness; when the cause is retryable
(not a logout), run `handleReconnect`. -/
def handleConnectionClose (s : BotState) (retryable : Bool) : BotState :=
  let s1 := { s with isBotReady := false }
  if retryable then
    { s1 with reconnectAttempts := (handleReconnect s1.reconnectAttempts).1 }
  else s1

/-- The externally triggered operations on the queue/supervisor state.
`enqueue` and `process` are split into separate actions, so the traces
below cover every interleaving of pushes and drain cycles (in the source
`add` always triggers a `process`, which is one particular trace). -/
inductive QAction where
  | enqueue (dest : String)
  | process (sendOk : Bool)
  | connOpen
  | connClose (retryable : Bool)

def stepQ (s : BotState) : QAction → BotState
  | .enqueue d => MessageQueue.push s d
  | .process ok => MessageQueue.processStep s ok
  | .connOpen => handleConnectionOpen s
  | .connClose r => handleConnectionClose s r

/-- Run a trace of actions from the initial (empty, not-ready) state. -/
def runQ (as : List QAction) : BotState :=
  as.foldl stepQ BotState.init

/-! ## Anti-spam (sliding-window rate limiter) -/

/-- The three result shapes of `AntiSpam.check`:
`{allowed: true}`, `{allowed: false, reason: 'banned', remaining}`, and
`{allowed: false, reason: 'spam_detected', blockDuration}`. -/
inductive CheckResult where
  | allowed
  | bannedAlready (remaining : Nat)
  | spamDetected (blockDuration : Nat)
deriving DecidableEq, Repr

/-- `this.limits.messages` -/
def limitsMessages : Nat := 10

/-- `this.limits.window` (ms) -/
def limitsWindow : Nat := 10000

/-- `this.limits.blockDuration` (ms) -/
def limitsBlockDuration : Nat := 300000

/-- `AntiSpam` state: `messages` is the per-sender timestamp map and
`banned` models `this.banned`.  The source keeps `banned` as a `Set` of
user ids and the ban-creation time only survives inside the closure of
the `setTimeout` that `ban` schedules; here each entry pairs the user id
with that creation time so the timer can be spoken about. -/
structure SpamState where
  messages : List (String × List Nat)
  banned : List (String × Nat)
deriving DecidableEq, Repr

def SpamState.init : SpamState := ⟨[], []⟩

/-- Map lookup with JS semantics (`map.get(u) || []`). -/
def getMsgs (m : List (String × List Nat)) (u : String) : List Nat :=
  match m with
  | [] => []
  | (k, v) :: rest => if k = u then v else getMsgs rest u

/-- Map update with JS semantics (`map.set(u, v)`). -/
def setMsgs (m : List (String × List Nat)) (u : String) (v : List Nat) :
    List (String × List Nat) :=
  match m with
  | [] => [(u, v)]
  | (k, v') :: rest => if k = u then (u, v) :: rest else (k, v') :: setMsgs rest u v

/-- `this.banned.has(userId)` -/
def isBanned (s : SpamState) (u : String) : Bool :=
  s.banned.any (fun p => p.1 = u)

namespace AntiSpam

/-- `AntiSpam.getRemainingBlock` (bot file lines 489-492): the comment
in the source says "Simplified - in real implementation, track ban
time"; it returns the constant `blockDuration` for every user. -/
def getRemainingBlock (_userId : String) : Nat := limitsBlockDuration

/-- `AntiSpam.ban` (bot file lines 483-487): add the user to the banned
set; the `setTimeout(() => this.banned.delete(userId), blockDuration)`
it schedules is modelled by `banTimerFire` below, the entry keeping the
creation time `now` that the timer closure captures. -/
def ban (s : SpamState) (u : String) (now : Nat) : SpamState :=
  { s with banned := s.banned ++ [(u, now)] }

/-- The sliding-window part of `AntiSpam.check` (bot file lines
467-480), reached after the ban branch falls through: drop timestamps
older than the window, push `now`, store the list back, and ban when
the resulting count exceeds the threshold. -/
def checkWindow (s : SpamState) (u : String) (now : Nat) :
    CheckResult × SpamState :=
  let userMessages := getMsgs s.messages u
  let recent := (userMessages.filter fun time => now - time < limitsWindow) ++ [now]
  let s1 := { s with messages := setMsgs s.messages u recent }
  if limitsMessages < recent.length then
    (.spamDetected limitsBlockDuration, ban s1 u now)
  else (.allowed, s1)

/-- `AntiSpam.check` (bot file lines 460-481): a banned user with
positive remaining block time is rejected outright; a banned user whose
remaining time is not positive is first removed from the banned set and
then falls through to the sliding-window logic, as does an unbanned
user. -/
def check (s : SpamState) (u : String) (now : Nat) : CheckResult × SpamState :=
  if isBanned s u then
    let remaining := getRemainingBlock u
    if 0 < remaining then (.bannedAlready remaining, s)
    else checkWindow { s with banned := s.banned.filter fun p => ¬ p.1 = u } u now
  else checkWindow s u now

/-- The callback `() => this.banned.delete(userId)` scheduled by `ban`
at time `banTime` with delay `blockDuration`.  `setTimeout` semantics:
the callback can only run at a real time `now ≥ banTime + blockDuration`
(and it is the only place outside `check` that removes a ban).  When it
runs it performs `Set.delete(userId)`. -/
def banTimerFire (s : SpamState) (u : String) (banTime now : Nat) :
    Option SpamState :=
  if (u, banTime) ∈ s.banned ∧ banTime + limitsBlockDuration ≤ now then
    some { s with banned := s.banned.filter fun p => ¬ p.1 = u }
  else none

end AntiSpam

/-- Repeated `check` calls for one sender at the given timestamps,
collecting the results in order. -/
def runChecks (s : SpamState) (u : String) : List Nat → List CheckResult × SpamState
  | [] => ([], s)
  | t :: ts =>
    let r := AntiSpam.check s u t
    let rest := runChecks r.2 u ts
    (r.1 :: rest.1, rest.2)

/-! ## OTP verification -/

/-- `{code, expires, attempts}` as stored by `cmdSendOTP` /
`/api/auth/otp.js`. -/
structure OtpRecord where
  code : String
  expires : Nat
  attempts : Nat
deriving DecidableEq, Repr

/-- A JS object (or the Vercel KV namespace) used as a string-keyed
store of OTP records. -/
abbrev OtpStore := List (String × OtpRecord)

/-- `store[k]` -/
def lookupKey (st : OtpStore) (k : String) : Option OtpRecord :=
  match st with
  | [] => none
  | (k', v) :: rest => if k' = k then some v else lookupKey rest k

/-- `store[k] = v` (overwrite in place, append when absent). -/
def setKey (st : OtpStore) (k : String) (v : OtpRecord) : OtpStore :=
  match st with
  | [] => [(k, v)]
  | (k', v') :: rest =>
    if k' = k then (k, v) :: rest else (k', v') :: setKey rest k v

/-- `delete store[k]` / `kv.del(k)` (a no-op when the key is absent). -/
def delKey (st : OtpStore) (k : String) : OtpStore :=
  match st with
  | [] => []
  | (k', v') :: rest =>
    if k' = k then delKey rest k else (k', v') :: delKey rest k

/-- `phone.replace(/[^0-9]/g, '')` -/
def digitsOnly (s : String) : String :=
  String.mk (s.data.filter fun c => c.isDigit)

inductive VerifyResult where
  | notFound
  | expired
  | mismatch
  | verified
deriving DecidableEq, Repr

/-- `botAPI.verifyOTP` (bot file lines 1503-1518).  The record is looked
up under the digits-only normalisation of `phone`; an expired record is
*left in the store* (the source returns without writing); a mismatch
increments `attempts` on the live object and persists the store; a
match executes `delete otps[phone]` — note: under the *raw* `phone`
key, not the normalised one used for the lookup — and persists. -/
def verifyOTP (otps : OtpStore) (phone code : String) (now : Nat) :
    VerifyResult × OtpStore :=
  let key := digitsOnly phone
  match lookupKey otps key with
  | none => (.notFound, otps)
  | some data =>
    if data.expires < now then (.expired, otps)
    else if data.code ≠ code then
      (.mismatch, setKey otps key { data with attempts := data.attempts + 1 })
    else (.verified, delKey otps phone)

/-- The OTP branch of the serverless handler `src/api/auth/verify.js`
(lines 41-75): records live under `"otp:" ++ target`; an expired record
is deleted before failing; a mismatch increments `attempts` and writes
the record back; a match deletes the record and succeeds.  (The session
and user objects it then creates are not modelled — no claim mentions
them.) -/
def verifyHandler (kv : OtpStore) (target code : String) (now : Nat) :
    VerifyResult × OtpStore :=
  let key := "otp:" ++ target
  match lookupKey kv key with
  | none => (.notFound, kv)
  | some otp =>
    if otp.expires < now then (.expired, delKey kv key)
    else if otp.code ≠ code then
      (.mismatch, setKey kv key { otp with attempts := otp.attempts + 1 })
    else (.verified, delKey kv key)

/-! ## Lemmas about the delivery queue -/

lemma processStep_isBotReady (s : BotState) (ok : Bool) :
    (MessageQueue.processStep s ok).isBotReady = s.isBotReady := by
  rcases s with ⟨q, nid, rdy, ra, sn, enq⟩
  cases q with
  | nil => rfl
  | cons m rest =>
    simp only [MessageQueue.processStep]
    split
    · rfl
    · split
      · rfl
      · split <;> rfl

lemma processStep_sent_mono (s : BotState) (ok : Bool) :
    ∃ extra, (MessageQueue.processStep s ok).sent = s.sent ++ extra := by
  rcases s with ⟨q, nid, rdy, ra, sn, enq⟩
  cases q with
  | nil => exact ⟨[], by simp [MessageQueue.processStep]⟩
  | cons m rest =>
    simp only [MessageQueue.processStep]
    split
    · exact ⟨[], by simp⟩
    · split
      · exact ⟨[m.id], rfl⟩
      · split
        · exact ⟨[], by simp⟩
        · exact ⟨[], by simp⟩

lemma processStep_enqueued (s : BotState) (ok : Bool) :
    (MessageQueue.processStep s ok).enqueued = s.enqueued := by
  rcases s with ⟨q, nid, rdy, ra, sn, enq⟩
  cases q with
  | nil => rfl
  | cons m rest =>
    simp only [MessageQueue.processStep]
    split
    · rfl
    · split
      · rfl
      · split <;> rfl

/-- Every envelope sitting in the queue has strictly fewer than
`maxAttempts` failed attempts (an envelope whose counter reaches the
bound is shifted off in the same cycle). -/
def AttemptsBounded (s : BotState) : Prop :=
  ∀ e ∈ s.queue, e.attempts < MessageQueue.maxAttempts

lemma attemptsBounded_processStep {s : BotState} (ok : Bool)
    (h : AttemptsBounded s) : AttemptsBounded (MessageQueue.processStep s ok) := by
  rcases s with ⟨q, nid, rdy, ra, sn, enq⟩
  cases q with
  | nil => exact h
  | cons m rest =>
    simp only [MessageQueue.processStep]
    split
    · exact h
    · split
      · intro e he
        exact h e (List.mem_cons_of_mem m he)
      · split
        · intro e he
          exact h e (List.mem_cons_of_mem m he)
        · next hlt =>
          intro e he
          rcases List.mem_cons.mp he with rfl | he
          · exact Nat.lt_of_not_le hlt
          · exact h e (List.mem_cons_of_mem m he)

lemma attemptsBounded_push {s : BotState} (d : String)
    (h : AttemptsBounded s) : AttemptsBounded (MessageQueue.push s d) := by
  intro e he
  rcases List.mem_append.mp he with he | he
  · exact h e he
  · rcases List.mem_singleton.mp he with rfl
    simp [MessageQueue.maxAttempts]

lemma attemptsBounded_drainAll {s : BotState} (fuel : Nat)
    (h : AttemptsBounded s) : AttemptsBounded (drainAll fuel s) := by
  induction fuel generalizing s with
  | zero => exact h
  | succ n ih => exact ih (attemptsBounded_processStep true h)

lemma attemptsBounded_stepQ {s : BotState} (a : QAction)
    (h : AttemptsBounded s) : AttemptsBounded (stepQ s a) := by
  cases a with
  | enqueue d => exact attemptsBounded_push d h
  | process ok => exact attemptsBounded_processStep ok h
  | connOpen => exact attemptsBounded_drainAll _ h
  | connClose r =>
    cases r <;> (intro e he; exact h e he)

lemma attemptsBounded_runQ (as : List QAction) : AttemptsBounded (runQ as) := by
  have base : AttemptsBounded BotState.init := by
    intro e he
    simp [BotState.init] at he
  rw [runQ]
  generalize BotState.init = s at base ⊢
  induction as generalizing s with
  | nil => exact base
  | cons a as ih => exact ih _ (attemptsBounded_stepQ a base)

/-- The ids still queued always form a suffix of the full submission
order: nothing is ever inserted anywhere but the tail, and nothing is
ever removed anywhere but the head. -/
def SubmissionSuffix (s : BotState) : Prop :=
  ∃ pre, s.enqueued = pre ++ s.queue.map (fun e => e.id)

lemma submissionSuffix_processStep {s : BotState} (ok : Bool)
    (h : SubmissionSuffix s) : SubmissionSuffix (MessageQueue.processStep s ok) := by
  obtain ⟨pre, hpre⟩ := h
  rcases s with ⟨q, nid, rdy, ra, sn, enq⟩
  cases q with
  | nil => exact ⟨pre, hpre⟩
  | cons m rest =>
    simp only [MessageQueue.processStep]
    split
    · exact ⟨pre, hpre⟩
    · split
      · refine ⟨pre ++ [m.id], ?_⟩
        simpa [List.append_assoc] using hpre
      · split
        · refine ⟨pre ++ [m.id], ?_⟩
          simpa [List.append_assoc] using hpre
        · exact ⟨pre, by simpa using hpre⟩

lemma submissionSuffix_push {s : BotState} (d : String)
    (h : SubmissionSuffix s) : SubmissionSuffix (MessageQueue.push s d) := by
  obtain ⟨pre, hpre⟩ := h
  refine ⟨pre, ?_⟩
  simp [MessageQueue.push, hpre, List.append_assoc]

lemma submissionSuffix_drainAll {s : BotState} (fuel : Nat)
    (h : SubmissionSuffix s) : SubmissionSuffix (drainAll fuel s) := by
  induction fuel generalizing s with
  | zero => exact h
  | succ n ih => exact ih (submissionSuffix_processStep true h)

lemma submissionSuffix_stepQ {s : BotState} (a : QAction)
    (h : SubmissionSuffix s) : SubmissionSuffix (stepQ s a) := by
  cases a with
  | enqueue d => exact submissionSuffix_push d h
  | process ok => exact submissionSuffix_processStep ok h
  | connOpen => exact submissionSuffix_drainAll _ h
  | connClose r => cases r <;> exact h

lemma submissionSuffix_runQ (as : List QAction) : SubmissionSuffix (runQ as) := by
  have base : SubmissionSuffix BotState.init := ⟨[], rfl⟩
  rw [runQ]
  generalize BotState.init = s at base ⊢
  induction as generalizing s with
  | nil => exact base
  | cons a as ih => exact ih _ (submissionSuffix_stepQ a base)

/-- With the bot ready and every transport send succeeding, the drain
loop delivers the whole queue in order. -/
lemma drainAll_spec : ∀ (q : List Envelope) (s : BotState),
    s.isBotReady = true → s.queue = q →
    drainAll q.length s =
      { s with queue := [], sent := s.sent ++ q.map (fun e => e.id) } := by
  intro q
  induction q with
  | nil =>
    intro s hr hq
    rcases s with ⟨q', nid, rdy, ra, sn, enq⟩
    simp only at hq
    subst hq
    simp [drainAll]
  | cons m rest ih =>
    intro s hr hq
    rcases s with ⟨q', nid, rdy, ra, sn, enq⟩
    simp only at hq hr
    subst hq hr
    have hstep : MessageQueue.processStep ⟨m :: rest, nid, true, ra, sn, enq⟩ true =
        ⟨rest, nid, true, ra, sn ++ [m.id], enq⟩ := by
      simp [MessageQueue.processStep]
    show drainAll (rest.length + 1) _ = _
    rw [show drainAll (rest.length + 1) ⟨m :: rest, nid, true, ra, sn, enq⟩ =
        drainAll rest.length (MessageQueue.processStep ⟨m :: rest, nid, true, ra, sn, enq⟩ true) from rfl,
      hstep, ih _ rfl rfl]
    simp

lemma processStep_reconnectAttempts (s : BotState) (ok : Bool) :
    (MessageQueue.processStep s ok).reconnectAttempts = s.reconnectAttempts := by
  rcases s with ⟨q, nid, rdy, ra, sn, enq⟩
  cases q with
  | nil => rfl
  | cons m rest =>
    simp only [MessageQueue.processStep]
    split
    · rfl
    · split
      · rfl
      · split <;> rfl

lemma drainAll_reconnectAttempts (fuel : Nat) (s : BotState) :
    (drainAll fuel s).reconnectAttempts = s.reconnectAttempts := by
  induction fuel generalizing s with
  | zero => rfl
  | succ n ih => rw [drainAll, ih, processStep_reconnectAttempts]

lemma drainAll_isBotReady (fuel : Nat) (s : BotState) :
    (drainAll fuel s).isBotReady = s.isBotReady := by
  induction fuel generalizing s with
  | zero => rfl
  | succ n ih => rw [drainAll, ih, processStep_isBotReady]

/-- A drain cycle does nothing at all while the bot is not ready. -/
lemma processStep_not_ready (s : BotState) (ok : Bool)
    (h : s.isBotReady = false) : MessageQueue.processStep s ok = s := by
  rcases s with ⟨q, nid, rdy, ra, sn, enq⟩
  cases q with
  | nil => rfl
  | cons m rest =>
    simp only at h
    subst h
    simp [MessageQueue.processStep]

/-! ## Claim theorems: delivery queue and supervisor -/

/-- C1: over every trace of queue/supervisor actions, every envelope in
the delivery queue satisfies `0 ≤ attempts ≤ maxAttempts`; and a drain
cycle on a ready queue removes the head iff the transport send succeeds
or the head's attempts counter reaches `maxAttempts` (3); in every other
case the head stays in place with its counter incremented. -/
theorem claim_C1_envelope_removal :
    (∀ as : List QAction, ∀ e ∈ (runQ as).queue,
        0 ≤ e.attempts ∧ e.attempts ≤ MessageQueue.maxAttempts)
    ∧ (∀ (s : BotState) (sendOk : Bool) (m : Envelope) (rest : List Envelope),
        s.queue = m :: rest → s.isBotReady = true →
        m.attempts < MessageQueue.maxAttempts →
        (((MessageQueue.processStep s sendOk).queue = rest) ↔
          (sendOk = true ∨ m.attempts + 1 = MessageQueue.maxAttempts))
        ∧ ((MessageQueue.processStep s sendOk).queue ≠ rest →
            (MessageQueue.processStep s sendOk).queue =
              { m with attempts := m.attempts + 1 } :: rest)) := by
  constructor
  · intro as e he
    exact ⟨Nat.zero_le _, Nat.le_of_lt (attemptsBounded_runQ as e he)⟩
  · intro s sendOk m rest hq hr hatt
    rcases s with ⟨q, nid, rdy, ra, sn, enq⟩
    simp only at hq hr
    subst hq hr
    cases sendOk with
    | true =>
      refine ⟨?_, ?_⟩
      · simp [MessageQueue.processStep]
      · intro hne
        exact absurd (by simp [MessageQueue.processStep]) hne
    | false =>
      by_cases h3 : MessageQueue.maxAttempts ≤ m.attempts + 1
      · have ha : m.attempts + 1 = MessageQueue.maxAttempts := Nat.le_antisymm hatt h3
        refine ⟨?_, ?_⟩
        · simp [MessageQueue.processStep, h3, ha]
        · intro hne
          exact absurd (by simp [MessageQueue.processStep, h3]) hne
      · have hqueue : (MessageQueue.processStep ⟨m :: rest, nid, true, ra, sn, enq⟩ false).queue
            = { m with attempts := m.attempts + 1 } :: rest := by
          simp [MessageQueue.processStep, h3]
        refine ⟨?_, fun _ => hqueue⟩
        rw [hqueue]
        constructor
        · intro h
          have := congrArg List.length h
          simp at this
        · intro h
          rcases h with h | h
          · exact absurd h (by simp)
          · exact absurd h (by omega)

/-- C1 witness: a concrete trace and a concrete ready state. -/
theorem claim_C1_witness :
    (0 ≤ (Envelope.mk 0 "a" 0).attempts
      ∧ (Envelope.mk 0 "a" 0).attempts ≤ MessageQueue.maxAttempts)
    ∧ (((MessageQueue.processStep ⟨[⟨0, "a", 2⟩], 1, true, 0, [], [0]⟩ false).queue = []) ↔
        (false = true ∨ (Envelope.mk 0 "a" 2).attempts + 1 = MessageQueue.maxAttempts)) :=
  ⟨claim_C1_envelope_removal.1 [QAction.enqueue "a"] ⟨0, "a", 0⟩ (by decide),
   (claim_C1_envelope_removal.2 ⟨[⟨0, "a", 2⟩], 1, true, 0, [], [0]⟩ false
      ⟨0, "a", 2⟩ [] rfl rfl (by decide)).1⟩

/-- C2: `add` always appends at the tail; a drain cycle only ever
removes or retries the current head; a failed, non-exhausted head is
retried in place (same position, same id, counter incremented) rather
than requeued at the tail; and over every trace the ids still queued
form a suffix of the full submission order, so envelopes are attempted
in submission order. -/
theorem claim_C2_submission_order :
    (∀ (s : BotState) (d : String),
        (MessageQueue.push s d).queue = s.queue ++ [⟨s.nextId, d, 0⟩]
        ∧ (MessageQueue.push s d).enqueued = s.enqueued ++ [s.nextId])
    ∧ (∀ (s : BotState) (sendOk : Bool) (m : Envelope) (rest : List Envelope),
        s.queue = m :: rest → s.isBotReady = true →
        (MessageQueue.processStep s sendOk).queue = rest
        ∨ (MessageQueue.processStep s sendOk).queue
            = { m with attempts := m.attempts + 1 } :: rest)
    ∧ (∀ (s : BotState) (m : Envelope) (rest : List Envelope),
        s.queue = m :: rest → s.isBotReady = true →
        m.attempts + 1 < MessageQueue.maxAttempts →
        (MessageQueue.processStep s false).queue
          = { m with attempts := m.attempts + 1 } :: rest)
    ∧ (∀ as : List QAction, ∃ pre,
        (runQ as).enqueued = pre ++ (runQ as).queue.map (fun e => e.id)) := by
  refine ⟨fun s d => ⟨rfl, rfl⟩, ?_, ?_, submissionSuffix_runQ⟩
  · intro s sendOk m rest hq hr
    rcases s with ⟨q, nid, rdy, ra, sn, enq⟩
    simp only at hq hr
    subst hq hr
    cases sendOk with
    | true => exact Or.inl (by simp [MessageQueue.processStep])
    | false =>
      by_cases h3 : MessageQueue.maxAttempts ≤ m.attempts + 1
      · exact Or.inl (by simp [MessageQueue.processStep, h3])
      · exact Or.inr (by simp [MessageQueue.processStep, h3])
  · intro s m rest hq hr hatt
    rcases s with ⟨q, nid, rdy, ra, sn, enq⟩
    simp only at hq hr
    subst hq hr
    have h3 : ¬ MessageQueue.maxAttempts ≤ m.attempts + 1 := by omega
    simp [MessageQueue.processStep, h3]

/-- C2 witness: concrete push, retry-in-place, and trace instances. -/
theorem claim_C2_witness :
    ((MessageQueue.push BotState.init "d").queue = [] ++ [⟨0, "d", 0⟩])
    ∧ ((MessageQueue.processStep ⟨[⟨7, "d", 0⟩], 8, true, 0, [], [7]⟩ false).queue
        = [⟨7, "d", 1⟩])
    ∧ (∃ pre, (runQ [QAction.enqueue "d"]).enqueued
        = pre ++ (runQ [QAction.enqueue "d"]).queue.map (fun e => e.id)) :=
  ⟨(claim_C2_submission_order.1 BotState.init "d").1,
   claim_C2_submission_order.2.2.1 ⟨[⟨7, "d", 0⟩], 8, true, 0, [], [7]⟩
      ⟨7, "d", 0⟩ [] rfl rfl (by decide),
   claim_C2_submission_order.2.2.2 [QAction.enqueue "d"]⟩

/-- C3: an envelope enqueued while the supervisor is not ready triggers
no send (the drain cycle that `add` fires returns immediately and `sent`
is unchanged); as soon as the `open` connection update arrives — which
sets readiness and calls `process()` with no other external trigger —
the whole backlog, the new envelope included, is delivered. -/
theorem claim_C3_deliver_on_open :
    ∀ (s : BotState) (d : String) (sendOk : Bool),
      s.isBotReady = false →
      (MessageQueue.add s d sendOk).sent = s.sent
      ∧ (MessageQueue.add s d sendOk).queue = s.queue ++ [Envelope.mk s.nextId d 0]
      ∧ (handleConnectionOpen (MessageQueue.add s d sendOk)).sent
          = s.sent ++ (s.queue ++ [Envelope.mk s.nextId d 0]).map (fun e => e.id)
      ∧ s.nextId ∈ (handleConnectionOpen (MessageQueue.add s d sendOk)).sent
      ∧ (handleConnectionOpen (MessageQueue.add s d sendOk)).queue = [] := by
  intro s d sendOk h
  rcases s with ⟨q, nid, rdy, ra, sn, enq⟩
  simp only at h
  subst h
  have hadd : MessageQueue.add ⟨q, nid, false, ra, sn, enq⟩ d sendOk
      = ⟨q ++ [Envelope.mk nid d 0], nid + 1, false, ra, sn, enq ++ [nid]⟩ :=
    processStep_not_ready _ _ rfl
  have hopen : handleConnectionOpen ⟨q ++ [Envelope.mk nid d 0], nid + 1, false, ra, sn, enq ++ [nid]⟩
      = ⟨[], nid + 1, true, 0, sn ++ (q ++ [Envelope.mk nid d 0]).map (fun e => e.id),
          enq ++ [nid]⟩ := by
    unfold handleConnectionOpen
    have := drainAll_spec (q ++ [Envelope.mk nid d 0])
      ⟨q ++ [Envelope.mk nid d 0], nid + 1, true, 0, sn, enq ++ [nid]⟩ rfl rfl
    simpa using this
  rw [hadd, hopen]
  refine ⟨rfl, rfl, rfl, ?_, rfl⟩
  simp

/-- C3 witness: enqueue into the initial (not ready) state, then open. -/
theorem claim_C3_witness :
    (MessageQueue.add BotState.init "d" true).sent = BotState.init.sent
    ∧ (0 : Nat) ∈ (handleConnectionOpen (MessageQueue.add BotState.init "d" true)).sent :=
  ⟨(claim_C3_deliver_on_open BotState.init "d" true rfl).1,
   (claim_C3_deliver_on_open BotState.init "d" true rfl).2.2.2.1⟩

/-- C4: the backoff delay computed by `handleReconnect` for attempt `n ≥ 1`
is `min(5000 * 2^(n-1), 60000)`; attempts 1..5 give 5000, 10000, 20000,
40000, 60000 ms; the sequence is non-decreasing and capped at 60000 ms. -/
theorem claim_C4_backoff_delays :
    (∀ n, 1 ≤ n → n ≤ MAX_RECONNECT_ATTEMPTS →
        handleReconnect (n - 1) = (n, ReconnectAction.retry (reconnectDelay n)))
    ∧ (∀ n, reconnectDelay n = min (5000 * 2 ^ (n - 1)) 60000)
    ∧ (reconnectDelay 1 = 5000 ∧ reconnectDelay 2 = 10000 ∧ reconnectDelay 3 = 20000
        ∧ reconnectDelay 4 = 40000 ∧ reconnectDelay 5 = 60000)
    ∧ (∀ n, 1 ≤ n → reconnectDelay n ≤ reconnectDelay (n + 1))
    ∧ (∀ n, reconnectDelay n ≤ 60000) := by
  refine ⟨?_, fun n => rfl, by decide, ?_, fun n => min_le_right _ _⟩
  · intro n h1 h10
    simp only [MAX_RECONNECT_ATTEMPTS] at h10
    have hn : n - 1 + 1 = n := by omega
    simp only [handleReconnect, hn]
    rw [if_neg (by simp only [MAX_RECONNECT_ATTEMPTS]; omega)]
  · intro n h1
    unfold reconnectDelay
    refine min_le_min ?_ le_rfl
    refine Nat.mul_le_mul_left _ ?_
    exact Nat.pow_le_pow_right (by norm_num) (by omega)

/-- C4 witness: attempt 3 concretely. -/
theorem claim_C4_witness :
    handleReconnect 2 = (3, ReconnectAction.retry (reconnectDelay 3))
    ∧ reconnectDelay 2 ≤ reconnectDelay 3 :=
  ⟨claim_C4_backoff_delays.1 3 (by decide) (by decide),
   claim_C4_backoff_delays.2.2.2.1 2 (by decide)⟩

/-- C5 counterexample: handling the ceiling does *not* reset the
counter to 0 — `handleReconnect` at the ceiling returns counter 11. -/
theorem claim_C5_counterexample :
    handleReconnect MAX_RECONNECT_ATTEMPTS = (11, ReconnectAction.restart 30000)
    ∧ (handleReconnect MAX_RECONNECT_ATTEMPTS).1 ≠ 0 := by
  decide

/-- C5 amended: once the incremented counter exceeds the ceiling of 10,
`handleReconnect` schedules a full restart (`startBot`) after a 30000 ms
cooldown and leaves the counter at its incremented (non-zero) value; the
counter is reset to 0 only later, by the `open` connection update. -/
theorem claim_C5_amended :
    (∀ n, MAX_RECONNECT_ATTEMPTS ≤ n →
        handleReconnect n = (n + 1, ReconnectAction.restart 30000) ∧ n + 1 ≠ 0)
    ∧ (∀ s : BotState, (handleConnectionOpen s).reconnectAttempts = 0
        ∧ (handleConnectionOpen s).isBotReady = true) := by
  constructor
  · intro n hn
    simp only [MAX_RECONNECT_ATTEMPTS] at hn
    refine ⟨?_, by omega⟩
    simp only [handleReconnect]
    rw [if_pos (by simp only [MAX_RECONNECT_ATTEMPTS]; omega)]
  · intro s
    unfold handleConnectionOpen
    exact ⟨drainAll_reconnectAttempts _ _, drainAll_isBotReady _ _⟩

/-- C5 witness: the ceiling reached concretely, and a concrete open. -/
theorem claim_C5_witness :
    handleReconnect 10 = (11, ReconnectAction.restart 30000)
    ∧ (handleConnectionOpen BotState.init).reconnectAttempts = 0 :=
  ⟨(claim_C5_amended.1 10 (by decide)).1, (claim_C5_amended.2 BotState.init).1⟩

/-! ## Lemmas about the rate limiter -/

lemma getMsgs_setMsgs (m : List (String × List Nat)) (u : String) (v : List Nat) :
    getMsgs (setMsgs m u v) u = v := by
  induction m with
  | nil => simp [setMsgs, getMsgs]
  | cons p rest ih =>
    obtain ⟨k, w⟩ := p
    by_cases h : k = u
    · simp [setMsgs, getMsgs, h]
    · simp [setMsgs, getMsgs, h, ih]

/-- A banned user (whatever the ban's age) is rejected with the constant
remaining time and the state is returned untouched. -/
lemma check_banned_state (s : SpamState) (u : String) (now : Nat)
    (h : isBanned s u = true) :
    AntiSpam.check s u now = (CheckResult.bannedAlready limitsBlockDuration, s) := by
  unfold AntiSpam.check
  rw [if_pos h, if_pos (by simp [AntiSpam.getRemainingBlock, limitsBlockDuration])]
  rfl

/-- `checkWindow` never removes a ban: it leaves `banned` alone or
appends the one new ban it creates. -/
lemma checkWindow_banned (s : SpamState) (u : String) (now : Nat) :
    (AntiSpam.checkWindow s u now).2.banned = s.banned
    ∨ (AntiSpam.checkWindow s u now).2.banned = s.banned ++ [(u, now)] := by
  unfold AntiSpam.checkWindow
  dsimp only
  split
  · exact Or.inr rfl
  · exact Or.inl rfl

/-- An unbanned user whose stored timestamps, like the current call, all
lie within 1000 ms of `T` (so well inside the 10 s window) and whose
resulting count stays within the threshold is admitted, the new
timestamp appended to the stored list. -/
lemma check_allowed_state (s : SpamState) (u : String) (T t : Nat)
    (hb : isBanned s u = false)
    (hms : ∀ x ∈ getMsgs s.messages u, T ≤ x ∧ x < T + 1000)
    (ht : T ≤ t ∧ t < T + 1000)
    (hlen : (getMsgs s.messages u).length + 1 ≤ limitsMessages) :
    AntiSpam.check s u t
      = (CheckResult.allowed,
         { s with messages := setMsgs s.messages u (getMsgs s.messages u ++ [t]) }) := by
  have hfilter : (getMsgs s.messages u).filter (fun time => t - time < limitsWindow)
      = getMsgs s.messages u := by
    rw [List.filter_eq_self]
    intro a ha
    have h1 := hms a ha
    simp only [limitsWindow, decide_eq_true_eq]
    omega
  unfold AntiSpam.check
  rw [if_neg (by simp [hb])]
  unfold AntiSpam.checkWindow
  dsimp only
  rw [hfilter, if_neg (by simp only [List.length_append, List.length_cons,
    List.length_nil, limitsMessages] at hlen ⊢; omega)]

/-- An unbanned user whose stored timestamps all lie within 1000 ms of
`T` and already number more than `threshold - 1` is banned by the next
call in the same window. -/
lemma check_bans (s : SpamState) (u : String) (T t : Nat)
    (hb : isBanned s u = false)
    (hms : ∀ x ∈ getMsgs s.messages u, T ≤ x ∧ x < T + 1000)
    (ht : T ≤ t ∧ t < T + 1000)
    (hlen : limitsMessages < (getMsgs s.messages u).length + 1) :
    AntiSpam.check s u t
      = (CheckResult.spamDetected limitsBlockDuration,
         { s with messages := setMsgs s.messages u (getMsgs s.messages u ++ [t]),
                  banned := s.banned ++ [(u, t)] }) := by
  have hfilter : (getMsgs s.messages u).filter (fun time => t - time < limitsWindow)
      = getMsgs s.messages u := by
    rw [List.filter_eq_self]
    intro a ha
    have h1 := hms a ha
    simp only [limitsWindow, decide_eq_true_eq]
    omega
  unfold AntiSpam.check
  rw [if_neg (by simp [hb])]
  unfold AntiSpam.checkWindow
  dsimp only
  rw [hfilter, if_pos (by simp only [List.length_append, List.length_cons,
    List.length_nil, limitsMessages] at hlen ⊢; omega)]
  rfl

/-- A run of admitted calls: starting unbanned, with every stored and
incoming timestamp within 1000 ms of `T` and the total count within the
threshold, every call is allowed and the timestamps accumulate. -/
lemma runChecks_all_allowed :
    ∀ (ts : List Nat) (s : SpamState) (u : String) (T : Nat),
      isBanned s u = false →
      (∀ x ∈ getMsgs s.messages u, T ≤ x ∧ x < T + 1000) →
      (∀ t ∈ ts, T ≤ t ∧ t < T + 1000) →
      (getMsgs s.messages u).length + ts.length ≤ limitsMessages →
      ∃ s', runChecks s u ts = (List.replicate ts.length CheckResult.allowed, s')
        ∧ isBanned s' u = false
        ∧ getMsgs s'.messages u = getMsgs s.messages u ++ ts
        ∧ s'.banned = s.banned := by
  intro ts
  induction ts with
  | nil =>
    intro s u T hb hms hts hlen
    exact ⟨s, rfl, hb, by simp, rfl⟩
  | cons t ts ih =>
    intro s u T hb hms hts hlen
    have hcheck := check_allowed_state s u T t hb hms (hts t (by simp))
      (by simp only [List.length_cons] at hlen; omega)
    have hb1 : isBanned { s with
        messages := setMsgs s.messages u (getMsgs s.messages u ++ [t]) } u = false := hb
    have hms1 : ∀ x ∈ getMsgs (setMsgs s.messages u (getMsgs s.messages u ++ [t])) u,
        T ≤ x ∧ x < T + 1000 := by
      rw [getMsgs_setMsgs]
      intro x hx
      rcases List.mem_append.mp hx with hx | hx
      · exact hms x hx
      · rcases List.mem_singleton.mp hx with rfl
        exact hts _ (by simp)
    have hlen1 : (getMsgs (setMsgs s.messages u (getMsgs s.messages u ++ [t])) u).length
        + ts.length ≤ limitsMessages := by
      rw [getMsgs_setMsgs]
      simp only [List.length_append, List.length_cons, List.length_nil]
      simp only [List.length_cons] at hlen
      omega
    obtain ⟨s', hrun, hb', hmsg', hban'⟩ :=
      ih _ u T hb1 hms1 (fun x hx => hts x (by simp [hx])) hlen1
    refine ⟨s', ?_, hb', ?_, hban'⟩
    · simp only [runChecks, hcheck, hrun, List.length_cons, List.replicate_succ]
    · rw [hmsg', getMsgs_setMsgs, List.append_assoc, List.singleton_append]

lemma runChecks_append (s : SpamState) (u : String) (xs ys : List Nat) :
    runChecks s u (xs ++ ys)
      = ((runChecks s u xs).1 ++ (runChecks (runChecks s u xs).2 u ys).1,
         (runChecks (runChecks s u xs).2 u ys).2) := by
  induction xs generalizing s with
  | nil => simp [runChecks]
  | cons x xs ih => simp [runChecks, ih]

/-! ## Claim theorems: rate limiter -/

/-- C8: with threshold 10 and a 10 s window, a sender producing 11
events within 1 second (all timestamps within 1000 ms of `T`) gets
`Allowed` ten times and is banned on the 11th with
`Banned(spam_detected, blockDuration)`; a 12th event from the same
sender before the ban expires is rejected with `Banned`. -/
theorem claim_C8_spam_ban :
    ∀ (u : String) (T : Nat) (ts : List Nat) (t12 : Nat),
      ts.length = 11 →
      (∀ t ∈ ts, T ≤ t ∧ t < T + 1000) →
      t12 < T + 1000 + limitsBlockDuration →
      ∃ s', runChecks SpamState.init u ts
          = (List.replicate 10 CheckResult.allowed
              ++ [CheckResult.spamDetected limitsBlockDuration], s')
        ∧ (AntiSpam.check s' u t12).1 = CheckResult.bannedAlready limitsBlockDuration
        ∧ (AntiSpam.check s' u t12).2 = s' := by
  intro u T ts t12 hlen hin h12
  have hne : ts ≠ [] := by
    intro h
    rw [h] at hlen
    simp at hlen
  obtain ⟨front, t11, hts⟩ : ∃ front t11, ts = front ++ [t11] :=
    ⟨ts.dropLast, ts.getLast hne, (List.dropLast_append_getLast hne).symm⟩
  subst hts
  have hfront_len : front.length = 10 := by
    simp only [List.length_append, List.length_cons, List.length_nil] at hlen
    omega
  have hfront_in : ∀ t ∈ front, T ≤ t ∧ t < T + 1000 :=
    fun t ht => hin t (List.mem_append_left _ ht)
  have ht11 : T ≤ t11 ∧ t11 < T + 1000 := hin t11 (by simp)
  obtain ⟨s1, hrun1, hb1, hmsg1, hban1⟩ :=
    runChecks_all_allowed front SpamState.init u T rfl
      (by intro x hx; simp [SpamState.init, getMsgs] at hx)
      hfront_in
      (by simp [SpamState.init, getMsgs, hfront_len, limitsMessages])
  have hmsg1' : getMsgs s1.messages u = front := by
    simpa [SpamState.init, getMsgs] using hmsg1
  have hcheck11 := check_bans s1 u T t11 hb1
    (by rw [hmsg1']; exact hfront_in) ht11
    (by rw [hmsg1', hfront_len]; simp [limitsMessages])
  have hban2 : isBanned { s1 with
      messages := setMsgs s1.messages u (getMsgs s1.messages u ++ [t11]),
      banned := s1.banned ++ [(u, t11)] } u = true := by
    simp [isBanned]
  have hfinal := check_banned_state _ u t12 hban2
  refine ⟨_, ?_, by rw [hfinal], by rw [hfinal]⟩
  rw [runChecks_append, hrun1]
  simp only [runChecks, hcheck11, hfront_len]

/-- C8 witness: 11 events at time 0 and a 12th at time 3. -/
theorem claim_C8_witness :
    ∃ s', runChecks SpamState.init "u" (List.replicate 11 0)
        = (List.replicate 10 CheckResult.allowed
            ++ [CheckResult.spamDetected limitsBlockDuration], s')
      ∧ (AntiSpam.check s' "u" 3).1 = CheckResult.bannedAlready limitsBlockDuration
      ∧ (AntiSpam.check s' "u" 3).2 = s' :=
  claim_C8_spam_ban "u" 0 (List.replicate 11 0) 3 (by decide) (by decide) (by decide)

/-- C9: the `setTimeout` callback scheduled by `ban` at `banTime` cannot
clear the ban at any time strictly before `banTime + 300000` and can at
every time at or after it; while the ban entry is present, every `check`
call for that sender is rejected; and no `check` call (for any sender)
removes the entry — only the timer does. -/
theorem claim_C9_ban_duration :
    (∀ (s : SpamState) (u : String) (banTime now : Nat),
        now < banTime + limitsBlockDuration →
        AntiSpam.banTimerFire s u banTime now = none)
    ∧ (∀ (s : SpamState) (u : String) (banTime now : Nat),
        (u, banTime) ∈ s.banned → banTime + limitsBlockDuration ≤ now →
        AntiSpam.banTimerFire s u banTime now
          = some { s with banned := s.banned.filter fun p => ¬ p.1 = u })
    ∧ (∀ (s : SpamState) (u : String) (banTime now : Nat),
        (u, banTime) ∈ s.banned →
        (AntiSpam.check s u now).1 = CheckResult.bannedAlready limitsBlockDuration)
    ∧ (∀ (s : SpamState) (u v : String) (banTime now : Nat),
        (u, banTime) ∈ s.banned →
        (u, banTime) ∈ (AntiSpam.check s v now).2.banned) := by
  refine ⟨?_, ?_, ?_, ?_⟩
  · intro s u banTime now hlt
    unfold AntiSpam.banTimerFire
    rw [if_neg]
    rintro ⟨-, hle⟩
    omega
  · intro s u banTime now hmem hle
    unfold AntiSpam.banTimerFire
    rw [if_pos ⟨hmem, hle⟩]
  · intro s u banTime now hmem
    have hb : isBanned s u = true := by
      simp only [isBanned, List.any_eq_true]
      exact ⟨(u, banTime), hmem, by simp⟩
    rw [check_banned_state s u now hb]
  · intro s u v banTime now hmem
    by_cases hb : isBanned s v
    · rw [check_banned_state s v now hb]
      exact hmem
    · have hcw : AntiSpam.check s v now = AntiSpam.checkWindow s v now := by
        unfold AntiSpam.check
        rw [if_neg (by simp [hb])]
      rw [hcw]
      rcases checkWindow_banned s v now with h | h
      · rw [h]; exact hmem
      · rw [h]; exact List.mem_append_left _ hmem

/-- C9 witness: a ban created at time 100. -/
theorem claim_C9_witness :
    AntiSpam.banTimerFire ⟨[], [("u", 100)]⟩ "u" 100 200 = none
    ∧ (AntiSpam.banTimerFire ⟨[], [("u", 100)]⟩ "u" 100 300100).isSome = true
    ∧ (AntiSpam.check ⟨[], [("u", 100)]⟩ "u" 150).1
        = CheckResult.bannedAlready limitsBlockDuration
    ∧ ("u", 100) ∈ (AntiSpam.check ⟨[], [("u", 100)]⟩ "v" 7).2.banned := by
  refine ⟨claim_C9_ban_duration.1 _ "u" 100 200 (by decide), ?_,
    claim_C9_ban_duration.2.2.1 _ "u" 100 150 (by decide),
    claim_C9_ban_duration.2.2.2 _ "u" "v" 100 7 (by decide)⟩
  rw [claim_C9_ban_duration.2.1 ⟨[], [("u", 100)]⟩ "u" 100 300100 (by decide) (by decide)]
  rfl

/-- C10: `getRemainingBlock` returns the constant `blockDuration`
(300000 ms) for every sender regardless of the ban's age, so `check` on
a banned sender always answers `Banned` with the full duration and
returns the state untouched — the expired-ban clearing branch inside
`check` is unreachable, and `check` only ever adds ban entries, never
removes them (removal happens only in the timer scheduled by `ban`). -/
theorem claim_C10_remaining_constant :
    (∀ u, AntiSpam.getRemainingBlock u = limitsBlockDuration)
    ∧ (∀ (s : SpamState) (u : String) (now : Nat),
        isBanned s u = true →
        AntiSpam.check s u now = (CheckResult.bannedAlready limitsBlockDuration, s))
    ∧ (∀ (s : SpamState) (u : String) (now : Nat),
        (AntiSpam.check s u now).2.banned = s.banned
        ∨ (AntiSpam.check s u now).2.banned = s.banned ++ [(u, now)]) := by
  refine ⟨fun u => rfl, fun s u now h => check_banned_state s u now h, ?_⟩
  intro s u now
  by_cases hb : isBanned s u
  · rw [check_banned_state s u now hb]
    exact Or.inl rfl
  · have hcw : AntiSpam.check s u now = AntiSpam.checkWindow s u now := by
      unfold AntiSpam.check
      rw [if_neg (by simp [hb])]
    rw [hcw]
    exact checkWindow_banned s u now

/-- C10 witness: a banned sender checked long after the ban. -/
theorem claim_C10_witness :
    AntiSpam.check ⟨[], [("u", 0)]⟩ "u" 999999999
      = (CheckResult.bannedAlready limitsBlockDuration, ⟨[], [("u", 0)]⟩) :=
  claim_C10_remaining_constant.2.1 ⟨[], [("u", 0)]⟩ "u" 999999999 (by decide)

/-! ## Lemmas about the OTP store -/

lemma lookupKey_setKey_self (st : OtpStore) (k : String) (v : OtpRecord) :
    lookupKey (setKey st k v) k = some v := by
  induction st with
  | nil => simp [setKey, lookupKey]
  | cons p rest ih =>
    obtain ⟨k', v'⟩ := p
    by_cases h : k' = k
    · simp [setKey, lookupKey, h]
    · simp [setKey, lookupKey, h, ih]

lemma lookupKey_delKey_self (st : OtpStore) (k : String) :
    lookupKey (delKey st k) k = none := by
  induction st with
  | nil => simp [delKey, lookupKey]
  | cons p rest ih =>
    obtain ⟨k', v'⟩ := p
    by_cases h : k' = k
    · simp [delKey, lookupKey, h, ih]
    · simp [delKey, lookupKey, h, ih]

/-! ## Claim theorems: OTP verification -/

/-- C6 counterexample: `botAPI.verifyOTP` does *not* delete an expired
record — after failing `Expired` the record is still in the store. -/
theorem claim_C6_counterexample :
    (verifyOTP [("628", ⟨"111111", 100, 0⟩)] "628" "111111" 200).1 = VerifyResult.expired
    ∧ lookupKey (verifyOTP [("628", ⟨"111111", 100, 0⟩)] "628" "111111" 200).2 "628"
        = some ⟨"111111", 100, 0⟩ := by
  constructor <;> rfl

/-- C6 amended: both verify implementations fail `NotFound` on a missing
record and, on a live record with a wrong code, increment `attempts`,
persist it, and fail `Mismatch`; on an expired record both fail
`Expired`, but only the serverless handler deletes the record —
`botAPI.verifyOTP` leaves it in the store. -/
theorem claim_C6_amended :
    (∀ (st : OtpStore) (phone code : String) (now : Nat),
        lookupKey st (digitsOnly phone) = none →
        verifyOTP st phone code now = (VerifyResult.notFound, st))
    ∧ (∀ (kv : OtpStore) (target code : String) (now : Nat),
        lookupKey kv ("otp:" ++ target) = none →
        verifyHandler kv target code now = (VerifyResult.notFound, kv))
    ∧ (∀ (st : OtpStore) (phone code : String) (now : Nat) (r : OtpRecord),
        lookupKey st (digitsOnly phone) = some r → r.expires < now →
        verifyOTP st phone code now = (VerifyResult.expired, st)
        ∧ lookupKey (verifyOTP st phone code now).2 (digitsOnly phone) = some r)
    ∧ (∀ (kv : OtpStore) (target code : String) (now : Nat) (r : OtpRecord),
        lookupKey kv ("otp:" ++ target) = some r → r.expires < now →
        verifyHandler kv target code now
          = (VerifyResult.expired, delKey kv ("otp:" ++ target))
        ∧ lookupKey (verifyHandler kv target code now).2 ("otp:" ++ target) = none)
    ∧ (∀ (st : OtpStore) (phone code : String) (now : Nat) (r : OtpRecord),
        lookupKey st (digitsOnly phone) = some r → ¬ r.expires < now →
        r.code ≠ code →
        verifyOTP st phone code now
          = (VerifyResult.mismatch,
             setKey st (digitsOnly phone) { r with attempts := r.attempts + 1 })
        ∧ lookupKey (verifyOTP st phone code now).2 (digitsOnly phone)
            = some { r with attempts := r.attempts + 1 })
    ∧ (∀ (kv : OtpStore) (target code : String) (now : Nat) (r : OtpRecord),
        lookupKey kv ("otp:" ++ target) = some r → ¬ r.expires < now →
        r.code ≠ code →
        verifyHandler kv target code now
          = (VerifyResult.mismatch,
             setKey kv ("otp:" ++ target) { r with attempts := r.attempts + 1 })
        ∧ lookupKey (verifyHandler kv target code now).2 ("otp:" ++ target)
            = some { r with attempts := r.attempts + 1 }) := by
  refine ⟨?_, ?_, ?_, ?_, ?_, ?_⟩
  · intro st phone code now h
    simp only [verifyOTP, h]
  · intro kv target code now h
    simp only [verifyHandler, h]
  · intro st phone code now r h hexp
    have : verifyOTP st phone code now = (VerifyResult.expired, st) := by
      simp only [verifyOTP, h]
      rw [if_pos hexp]
    exact ⟨this, by rw [this]; exact h⟩
  · intro kv target code now r h hexp
    have : verifyHandler kv target code now
        = (VerifyResult.expired, delKey kv ("otp:" ++ target)) := by
      simp only [verifyHandler, h]
      rw [if_pos hexp]
    exact ⟨this, by rw [this]; exact lookupKey_delKey_self _ _⟩
  · intro st phone code now r h hexp hcode
    have : verifyOTP st phone code now
        = (VerifyResult.mismatch,
           setKey st (digitsOnly phone) { r with attempts := r.attempts + 1 }) := by
      simp only [verifyOTP, h]
      rw [if_neg hexp, if_pos hcode]
    exact ⟨this, by rw [this]; exact lookupKey_setKey_self _ _ _⟩
  · intro kv target code now r h hexp hcode
    have : verifyHandler kv target code now
        = (VerifyResult.mismatch,
           setKey kv ("otp:" ++ target) { r with attempts := r.attempts + 1 }) := by
      simp only [verifyHandler, h]
      rw [if_neg hexp, if_pos hcode]
    exact ⟨this, by rw [this]; exact lookupKey_setKey_self _ _ _⟩

/-- C6 witness: concrete missing, expired, and mismatching records for
both implementations. -/
theorem claim_C6_witness :
    verifyOTP [] "628" "1" 0 = (VerifyResult.notFound, [])
    ∧ verifyHandler [] "x" "1" 0 = (VerifyResult.notFound, [])
    ∧ verifyOTP [("628", ⟨"1", 5, 0⟩)] "628" "1" 9 = (VerifyResult.expired, [("628", ⟨"1", 5, 0⟩)])
    ∧ verifyHandler [("otp:x", ⟨"1", 5, 0⟩)] "x" "1" 9
        = (VerifyResult.expired, delKey [("otp:x", ⟨"1", 5, 0⟩)] "otp:x")
    ∧ lookupKey (verifyOTP [("628", ⟨"1", 5, 2⟩)] "628" "2" 5).2 "628" = some ⟨"1", 5, 3⟩
    ∧ lookupKey (verifyHandler [("otp:x", ⟨"1", 5, 2⟩)] "x" "2" 5).2 "otp:x" = some ⟨"1", 5, 3⟩ :=
  ⟨claim_C6_amended.1 [] "628" "1" 0 rfl,
   claim_C6_amended.2.1 [] "x" "1" 0 rfl,
   (claim_C6_amended.2.2.1 [("628", ⟨"1", 5, 0⟩)] "628" "1" 9 ⟨"1", 5, 0⟩
      (by decide) (by decide)).1,
   (claim_C6_amended.2.2.2.1 [("otp:x", ⟨"1", 5, 0⟩)] "x" "1" 9 ⟨"1", 5, 0⟩
      (by decide) (by decide)).1,
   (claim_C6_amended.2.2.2.2.1 [("628", ⟨"1", 5, 2⟩)] "628" "2" 5 ⟨"1", 5, 2⟩
      (by decide) (by decide) (by decide)).2,
   (claim_C6_amended.2.2.2.2.2 [("otp:x", ⟨"1", 5, 2⟩)] "x" "2" 5 ⟨"1", 5, 2⟩
      (by decide) (by decide) (by decide)).2⟩

/-- C7 (code slip): `botAPI.verifyOTP` looks records up under the
digits-only key but executes `delete otps[phone]` under the *raw*
phone, so for any target containing a non-digit the record survives a
successful verification and a second verify returns `Verified` again,
not `NotFound`.  The serverless handler, deleting under the same key it
read, does behave as claimed. -/
theorem claim_C7_failing_eval :
    verifyOTP [("6287717274346", ⟨"123456", 1000, 0⟩)] "+6287717274346" "123456" 500
      = (VerifyResult.verified, [("6287717274346", ⟨"123456", 1000, 0⟩)])
    ∧ (verifyOTP
        (verifyOTP [("6287717274346", ⟨"123456", 1000, 0⟩)]
          "+6287717274346" "123456" 500).2
        "+6287717274346" "123456" 500).1 = VerifyResult.verified
    ∧ VerifyResult.verified ≠ VerifyResult.notFound
    ∧ verifyOTP [("628", ⟨"123456", 1000, 0⟩)] "628" "123456" 500
        = (VerifyResult.verified, [])
    ∧ verifyHandler [("otp:+628", ⟨"123456", 1000, 0⟩)] "+628" "123456" 500
        = (VerifyResult.verified, [])
    ∧ (verifyHandler [] "+628" "123456" 500).1 = VerifyResult.notFound := by
  refine ⟨rfl, rfl, by decide, rfl, rfl, rfl⟩

end NdiiCloud
